import Mathlib

/-!
Verification development for the ScrapeJournal repository.

The Python sources (download.py, src/util.py, src/sitelogic/Nature.py,
src/sitelogic/NatureArticle.py) are shallowly embedded below: HTML pages are
modelled as structures holding exactly the selector results the code reads,
Python list indexing and int()/strptime() failures are modelled as an
explicit error monad, and the MySQL tables are modelled as in-memory tables
with auto-increment ids.  The crawl loop of download.py is embedded as a
fuel-indexed recursive function over a page world, recording its database
operations and prints as an event trace.
-/

set_option maxHeartbeats 1000000

deriving instance DecidableEq for Except

namespace SJ

/-- Python runtime errors that the scraper can raise or catch. -/
inductive PyErr where
  | indexError
  | keyError
  | valueError
  | dbError
deriving DecidableEq, Repr

/-- Python list subscription xs[i]: raises IndexError when out of range. -/
def pyGet (xs : List α) (i : Nat) : Except PyErr α :=
  match xs.get? i with
  | some x => Except.ok x
  | none => Except.error PyErr.indexError

/-- Values stored in a row or dict: strings, integers, or SQL NULL / Python None. -/
inductive Value where
  | vStr (s : String)
  | vInt (n : Int)
  | vNone
deriving DecidableEq, Repr

/-- A Python dict with string keys, in insertion order (as Python preserves it). -/
abbrev Dict := List (String × Value)

/-- Reading column k of a row; a missing column is SQL NULL (Python None). -/
def rowGet (d : Dict) (k : String) : Value := (d.lookup k).getD Value.vNone

/-- Python dict assignment d[k] = v: overwrite in place, else append at the end. -/
def dictSet (d : Dict) (k : String) (v : Value) : Dict :=
  if (d.lookup k).isSome then
    d.map (fun p => if p.1 = k then (k, v) else p)
  else d ++ [(k, v)]

/-- Python dict.update(e): apply the assignments of e left to right. -/
def dictUpdate (d : Dict) (e : Dict) : Dict :=
  e.foldl (fun acc p => dictSet acc p.1 p.2) d

/-- Python s.split(c) for a one-character separator: keeps empty pieces, and
splitting the empty string gives one empty piece. -/
def pySplitChar (c : Char) : List Char → List (List Char)
  | [] => [[]]
  | x :: xs =>
    if x = c then [] :: pySplitChar c xs
    else
      match pySplitChar c xs with
      | t :: ts => (x :: t) :: ts
      | [] => [[x]]

/-- String-level wrapper of pySplitChar. -/
def pySplit (c : Char) (s : String) : List String :=
  (pySplitChar c s.data).map (fun l => String.mk l)

/-- Helper for pySplitSub, with fuel bounded by the length of the input. -/
def pySplitSubGo (sep : List Char) : Nat → List Char → List Char → List (List Char)
  | 0, acc, rest => [acc.reverse ++ rest]
  | _ + 1, acc, [] => [acc.reverse]
  | n + 1, acc, x :: xs =>
    if sep.isPrefixOf (x :: xs) then
      acc.reverse :: pySplitSubGo sep n [] (List.drop (sep.length - 1) xs)
    else pySplitSubGo sep n (x :: acc) xs

/-- Python s.split(sep) for a non-empty multi-character separator. -/
def pySplitSub (sep : String) (s : String) : List String :=
  (pySplitSubGo sep.data s.data.length [] s.data).map (fun l => String.mk l)

/-- Python s.lower() (ASCII, as the scraped keys are ASCII). -/
def lowerStr (s : String) : String := String.mk (s.data.map Char.toLower)

/-- Python s.upper() (ASCII, as the scraped keys are ASCII). -/
def upperStr (s : String) : String := String.mk (s.data.map Char.toUpper)

/-- Python s.strip(): remove whitespace from both ends. -/
def stripStr (s : String) : String :=
  String.mk (((s.data.dropWhile Char.isWhitespace).reverse.dropWhile Char.isWhitespace).reverse)

/-- Python s.endswith(c) for a one-character suffix. -/
def pyEndsWith (c : Char) (s : String) : Bool := s.data.getLast? = some c

/-- Python s.rstrip(c): drop every trailing occurrence of c. -/
def pyRstrip (c : Char) (s : String) : String :=
  String.mk ((s.data.reverse.dropWhile (fun x => x = c)).reverse)

/-- Numeric value of a decimal digit character. -/
def digitVal (c : Char) : Nat := c.toNat - 48

/-- Value of a string of decimal digits, most significant first. -/
def digitsToNat (ds : List Char) : Nat := ds.foldl (fun acc c => 10 * acc + digitVal c) 0

/-- Core of Python int(str): a non-empty all-digit string (after sign removal). -/
def pyIntCore (ds : List Char) : Except PyErr Nat :=
  if ds ≠ [] ∧ ds.all Char.isDigit then Except.ok (digitsToNat ds)
  else Except.error PyErr.valueError

/-- Python int(str): optional surrounding whitespace, an optional sign, then
decimal digits; anything else (such as a decimal point) raises ValueError. -/
def pyInt (s : String) : Except PyErr Int :=
  let t := ((s.data.dropWhile Char.isWhitespace).reverse.dropWhile Char.isWhitespace).reverse
  if t.head? = some '+' then (pyIntCore t.tail).map (fun n => (n : Int))
  else if t.head? = some '-' then (pyIntCore t.tail).map (fun n => -(n : Int))
  else (pyIntCore t).map (fun n => (n : Int))

/-- Python substring containment, sep in s. -/
def strContains (sep : List Char) (l : List Char) : Bool :=
  l.tails.any (fun t => sep.isPrefixOf t)

/-- Python tag[attr] subscription: raises KeyError when the attribute is absent. -/
def attrGet (o : Option String) : Except PyErr String :=
  match o with
  | some s => Except.ok s
  | none => Except.error PyErr.keyError

/-- A table column as seen through SQLAlchemy reflection: its name and, for
string columns, the declared maximum length. -/
structure Column where
  name : String
  maxLen : Option Nat
deriving DecidableEq, Repr

/-- A reflected table: ordered columns, rows paired with their auto-generated
primary key, and the auto-increment counter. -/
structure Table where
  cols : List Column
  rows : List (Nat × Dict)
  nextId : Nat
deriving DecidableEq, Repr

namespace Util

/-- util.number_words: labels for the first three authors. -/
def number_words : List String := ["FIRST", "SECOND", "THIRD"]

/-- util.getSingleAuthorDict: split a full name on spaces, join all tokens but
the last into FIRSTNAME, keep the last token as LASTNAME. -/
def getSingleAuthorDict (auth : String) : Dict :=
  let auth_split := pySplit ' ' auth
  [("FIRSTNAME", Value.vStr (String.intercalate " " auth_split.dropLast)),
   ("LASTNAME", Value.vStr (auth_split.getLastD ""))]

/-- util.getAuthorDict: structured name fields for the first three authors. -/
def getAuthorDict (authors : List String) : Dict :=
  ((authors.take number_words.length).zip number_words).foldl
    (fun acc p =>
      let t := getSingleAuthorDict p.1
      dictSet (dictSet acc (p.2 ++ "_FIRSTNAME") (rowGet t "FIRSTNAME"))
        (p.2 ++ "_LASTNAME") (rowGet t "LASTNAME"))
    []

/-- util.removeNones: drop keys whose value is None or the empty string. -/
def removeNones (d : Dict) : Dict :=
  d.filter (fun p => !(p.2 == Value.vStr "") && !(p.2 == Value.vNone))

/-- util.truncateEntries: keep only keys that are table columns, in column
order, truncating string values to the declared column length when one is set. -/
def truncateEntries (entry : Dict) (table : Table) : Dict :=
  table.cols.foldl
    (fun acc col =>
      match entry.lookup col.name with
      | none => acc
      | some v =>
        let v2 :=
          match v, col.maxLen with
          | Value.vStr s, some n =>
            if n ≠ 0 then Value.vStr (String.mk (s.data.take n)) else Value.vStr s
          | _, _ => v
        acc ++ [(col.name, v2)])
    []

/-- Result of util.myInsert: the auto-generated primary key and the new table. -/
structure InsertResult where
  id : Nat
  table : Table
deriving DecidableEq, Repr

/-- util.myInsert: optionally clean and truncate the entry, then insert it,
returning the auto-generated primary key. -/
def myInsert (entry : Dict) (DB : Table) (rm_nones : Bool) (trunc : Bool) : InsertResult :=
  let e1 := if rm_nones then removeNones entry else entry
  let e2 := if trunc then truncateEntries e1 DB else e1
  { id := DB.nextId,
    table := { DB with rows := DB.rows ++ [(DB.nextId, e2)], nextId := DB.nextId + 1 } }

/-- util.elemInDB: whether some row of the table has the given value in the
given column (SQLAlchemy renders comparison with None as IS NULL). -/
def elemInDB (elem : Value) (field : String) (DB : Table) : Bool :=
  DB.rows.any (fun r => rowGet r.2 field == elem)

end Util

namespace Nature

/-- An HTML element as the card selectors see it: its text and an optional
href attribute. -/
structure Tag where
  text : String
  href : Option String
deriving DecidableEq, Repr

/-- A listing-page article card, holding the results of each CSS selector the
code applies to it. -/
structure Card where
  /-- elements matching .c-card__link -/
  cardLinks : List Tag
  /-- elements matching .app-author-list, each giving its span texts -/
  authorListEls : List (List String)
  /-- texts of elements matching .c-meta__type -/
  metaTypes : List String
  /-- datetime attributes of time elements -/
  timeDatetimes : List (Option String)
deriving DecidableEq, Repr

/-- Nature.basehref. -/
def basehref : String := "https://www.nature.com"

/-- Nature.title: text of the first .c-card__link element (IndexError if none). -/
def title (el : Card) : Except PyErr String := (pyGet el.cardLinks 0).map Tag.text

/-- Nature.title_link: basehref plus the href of the first .c-card__link element. -/
def title_link (el : Card) : Except PyErr String := do
  let t ← pyGet el.cardLinks 0
  let h ← attrGet t.href
  return basehref ++ h

/-- Nature.authors: span texts of the first .app-author-list element. -/
def authors (el : Card) : Except PyErr (List String) := pyGet el.authorListEls 0

/-- Nature.article_type: text of the first .c-meta__type element. -/
def article_type (el : Card) : Except PyErr String := pyGet el.metaTypes 0

/-- Nature.date_published: datetime attribute of the first time element. -/
def date_published (el : Card) : Except PyErr String := do
  let t ← pyGet el.timeDatetimes 0
  attrGet t

end Nature

namespace NatureArticle

/-- A detail (article) page, holding the results of each CSS selector the code
applies to it. -/
structure ArticleSoup where
  /-- .c-article-author-list elements, each giving its author-name link texts -/
  articleAuthorLists : List (List String)
  /-- .c-article-author-list__item elements, each giving its a.js-orcid anchors -/
  authorItems : List (List Nature.Tag)
  /-- texts of span.c-bibliographic-information__value elements -/
  bibValues : List String
  /-- .c-article-metrics-bar__wrapper elements, each giving its count texts -/
  metricsWrappers : List (List String)
  /-- texts of li.c-bibliographic-information__list-item elements -/
  bibListItems : List String
  /-- p.c-article-info-details elements, each giving its journal-link texts -/
  infoDetails : List (List String)
deriving DecidableEq, Repr

/-- NatureArticle.authors: author-name link texts of the first author list. -/
def authors (soup : ArticleSoup) : Except PyErr (List String) :=
  pyGet soup.articleAuthorLists 0

/-- NatureArticle.orcid_id: for each author item, the ORCID from the first
js-orcid anchor's href (after the orcid.org/ prefix), or None when absent. -/
def orcid_id (soup : ArticleSoup) : Except PyErr (List (Option String)) :=
  soup.authorItems.mapM (fun item =>
    match item with
    | [] => Except.ok none
    | t :: _ => do
      let h ← attrGet t.href
      return some ((pySplitSub "orcid.org/" h).getLastD ""))

/-- NatureArticle.doi: the first bibliographic value containing doi.org,
with everything up to doi.org/ removed; None when no value matches. -/
def doi (soup : ArticleSoup) : Option String :=
  (soup.bibValues.find? (fun p => strContains "doi.org".data p.data)).map
    (fun p => (pySplitSub "doi.org/" p).getLastD "")

/-- The numeric parse inside NatureArticle.metrics: int() of the text, with a
trailing k stripped and the value multiplied by 1000. -/
def parseCount (num_txt : String) : Except PyErr Int :=
  if pyEndsWith 'k' num_txt then (pyInt (pyRstrip 'k' num_txt)).map (fun n => n * 1000)
  else pyInt num_txt

/-- NatureArticle.metrics: for each count text of the first metrics bar, parse
the leading number and key it by the upper-cased following word. -/
def metrics (soup : ArticleSoup) : Except PyErr Dict := do
  let wrapper ← pyGet soup.metricsWrappers 0
  wrapper.foldlM
    (fun (metrics_data : Dict) txt => do
      let txt_ls := pySplit ' ' txt
      let num_txt ← pyGet txt_ls 0
      let num_int ← parseCount num_txt
      let key ← pyGet txt_ls 1
      return dictSet metrics_data (upperStr key) (Value.vInt num_int))
    []

/-- Month names recognised by datetime.strptime's %B directive, lowercased. -/
def monthNames : List (Nat × String) :=
  [(1, "january"), (2, "february"), (3, "march"), (4, "april"), (5, "may"),
   (6, "june"), (7, "july"), (8, "august"), (9, "september"), (10, "october"),
   (11, "november"), (12, "december")]

/-- Case-insensitive literal prefix match, returning the rest of the input. -/
def matchCI : List Char → List Char → Option (List Char)
  | [], r => some r
  | _ :: _, [] => none
  | p :: ps, c :: cs => if c.toLower = p then matchCI ps cs else none

/-- Match one full month name (case-insensitively) at the head of the input. -/
def matchMonth (s : List Char) : Option (Nat × List Char) :=
  monthNames.findSome? (fun p => (matchCI p.2.data s).map (fun r => (p.1, r)))

/-- Gregorian leap-year test, as datetime uses. -/
def isLeapYear (y : Nat) : Bool := y % 4 = 0 && (y % 100 ≠ 0 || y % 400 = 0)

/-- Number of days in a month, as datetime validates. -/
def daysInMonth (m y : Nat) : Nat :=
  if m = 2 then (if isLeapYear y then 29 else 28)
  else if m = 4 ∨ m = 6 ∨ m = 9 ∨ m = 11 then 30
  else 31

/-- datetime.strptime(s, d-B-Y format) as CPython implements it: a 1-2 digit
day in 1..31, whitespace, a full month name (case-insensitive), whitespace, a
4-digit year; the whole string must be consumed and the resulting date must be
a valid calendar date, else ValueError. -/
def strptimeDMYChars (l : List Char) : Except PyErr (Nat × Nat × Nat) :=
  let dayDs := l.takeWhile Char.isDigit
  let r1 := l.dropWhile Char.isDigit
  if dayDs.length < 1 ∨ 2 < dayDs.length then Except.error PyErr.valueError
  else
    let d := digitsToNat dayDs
    if d < 1 ∨ 31 < d then Except.error PyErr.valueError
    else
      let ws1 := r1.takeWhile Char.isWhitespace
      let r2 := r1.dropWhile Char.isWhitespace
      if ws1.length = 0 then Except.error PyErr.valueError
      else
        match matchMonth r2 with
        | none => Except.error PyErr.valueError
        | some (m, r3) =>
          let ws2 := r3.takeWhile Char.isWhitespace
          let r4 := r3.dropWhile Char.isWhitespace
          if ws2.length = 0 then Except.error PyErr.valueError
          else
            let yDs := r4.takeWhile Char.isDigit
            let r5 := r4.dropWhile Char.isDigit
            if yDs.length ≠ 4 ∨ r5 ≠ [] then Except.error PyErr.valueError
            else
              let y := digitsToNat yDs
              if y < 1 ∨ daysInMonth m y < d then Except.error PyErr.valueError
              else Except.ok (d, m, y)

/-- String-level wrapper of strptimeDMYChars. -/
def strptimeDMY (s : String) : Except PyErr (Nat × Nat × Nat) := strptimeDMYChars s.data

/-- Decimal digit character for the last decimal digit of n. -/
def digitChar (n : Nat) : Char :=
  match n % 10 with
  | 0 => '0' | 1 => '1' | 2 => '2' | 3 => '3' | 4 => '4'
  | 5 => '5' | 6 => '6' | 7 => '7' | 8 => '8' | _ => '9'

/-- Zero-padded two-digit rendering, as strftime's d and m directives. -/
def pad2 (n : Nat) : List Char := [digitChar (n / 10), digitChar n]

/-- Zero-padded four-digit rendering, as strftime's Y directive. -/
def pad4 (n : Nat) : List Char :=
  [digitChar (n / 1000), digitChar (n / 100), digitChar (n / 10), digitChar n]

/-- strftime(Y-m-d) on a parsed date: the ISO 8601 calendar-date string. -/
def strftimeYMD (d m y : Nat) : String :=
  String.mk (pad4 y ++ '-' :: pad2 m ++ '-' :: pad2 d)

/-- Capitalized English month names, as they appear on article pages. -/
def monthsCap : List String :=
  ["January", "February", "March", "April", "May", "June", "July", "August",
   "September", "October", "November", "December"]

/-- The display name of month m (1-based). -/
def monthCap (m : Nat) : String := monthsCap.getD (m - 1) ""

/-- NatureArticle.fields_desired. -/
def fields_desired : List String := ["Received", "Accepted", "Published"]

/-- One iteration of NatureArticle.dateList's loop: if the label (the text
before the colon) is desired, parse the date after the colon from
"DD Month YYYY" form and record it in ISO form under the upper-cased label. -/
def dateListStep (date_data : Dict) (txt : String) : Except PyErr Dict := do
  let txt_ls := pySplit ':' txt
  let f ← pyGet txt_ls 0
  if f ∈ fields_desired then do
    let raw ← pyGet txt_ls 1
    let date_str := stripStr raw
    let dmy ← strptimeDMY date_str
    return dictSet date_data (upperStr f)
      (Value.vStr (strftimeYMD dmy.1 dmy.2.1 dmy.2.2))
  else
    return date_data

/-- NatureArticle.dateList: fold dateListStep over the bibliographic items. -/
def dateList (soup : ArticleSoup) : Except PyErr Dict :=
  soup.bibListItems.foldlM dateListStep []

/-- NatureArticle.journal: text of the first journal link of the first
article-info paragraph. -/
def journal (soup : ArticleSoup) : Except PyErr String := do
  let p ← pyGet soup.infoDetails 0
  pyGet p 0

end NatureArticle

namespace Download

/-- Modelled from the spec: the AddOrIncrementWord stored procedure lives in
the MySQL database, not under src/; per the spec it atomically inserts a word
with count 1 or increments the word's running count. -/
def addOrIncrementWord (w : String) (ws : List (String × Nat)) : List (String × Nat) :=
  if ws.any (fun p => p.1 == w) then
    ws.map (fun p => if p.1 == w then (p.1, p.2 + 1) else p)
  else ws ++ [(w, 1)]

/-- Observable actions of the crawl: progress prints and database operations. -/
inductive Event where
  | logPage (n : Int)
  | logArticle (i : Nat)
  | logReachedArticles (i : Nat)
  | logAlreadySeen
  | logHashLines
  | logExceededMax (n : Int)
  | logErr (e : PyErr)
  | logErrCtx (page : Int) (i : Nat) (title : Value)
  | selectArticleByDOI (doi : Value)
  | selectAuthorByOrcid (orcid : String)
  | selectAuthorByName (fn ln : Value)
  | insertArticle (e : Dict)
  | insertAuthor (e : Dict)
  | insertLink (article_id author_id : Nat)
  | callAddOrIncrementWord (w : String)
deriving DecidableEq, Repr

/-- The three SQLAlchemy-reflected tables download.py writes through. -/
structure DB where
  ARTICLES : Table
  AUTHORS : Table
  ARTICLES_AUTHORS : Table
deriving DecidableEq, Repr

/-- Crawl state threaded through the loop: the engine-side database, the
word-count store committed through the separate mysql.connector connection,
and the event trace. -/
structure Trace where
  db : DB
  words : List (String × Nat)
  events : List Event
deriving DecidableEq, Repr

/-- Data extracted before the DOI existence check (download.py lines 143-161):
the partially built ARTICLES entry and the fetched detail page. -/
structure PreData where
  entry : Dict
  soup : NatureArticle.ArticleSoup
deriving DecidableEq, Repr

/-- Data extracted after the DOI existence check (download.py lines 169-183). -/
structure StageData where
  entry : Dict
  authors_proper : List String
  orcids : List (Option String)
deriving DecidableEq, Repr

/-- The extraction steps of the first try block up to the DOI existence check:
title, title link, detail-page fetch, DOI, metrics, dates, journal. -/
def extractPre (dw : String → NatureArticle.ArticleSoup) (el : Nature.Card) :
    Except PyErr PreData := do
  let t ← Nature.title el
  let e1 := dictSet [] "TITLE" (Value.vStr t)
  let link ← Nature.title_link el
  let e2 := dictSet e1 "TITLE_LINK" (Value.vStr link)
  let article_soup := dw link
  let d := NatureArticle.doi article_soup
  let e3 := dictSet e2 "DOI" (d.elim Value.vNone Value.vStr)
  let mets ← NatureArticle.metrics article_soup
  let e4 := dictUpdate e3 mets
  let dates ← NatureArticle.dateList article_soup
  let e5 := dictUpdate e4 dates
  let j ← NatureArticle.journal article_soup
  return { entry := dictSet e5 "JOURNAL" (Value.vStr j), soup := article_soup }

/-- The extraction steps of the first try block after the DOI existence check:
article type, listing date, listing authors, detail-page authors and ORCIDs. -/
def extractPost (el : Nature.Card) (pre : PreData) : Except PyErr StageData := do
  let ty ← Nature.article_type el
  let e1 := dictSet pre.entry "ARTICLE_TYPE" (Value.vStr ty)
  let dp ← Nature.date_published el
  let e2 := dictSet e1 "DATE_PUBLISHED" (Value.vStr dp)
  let auths ← Nature.authors el
  let e3 := dictUpdate e2 (Util.getAuthorDict auths)
  let authors_proper ← NatureArticle.authors pre.soup
  let orcids ← NatureArticle.orcid_id pre.soup
  return { entry := e3, authors_proper := authors_proper, orcids := orcids }

/-- One author resolution (download.py lines 204-228): select by ORCID when
one was extracted, else by first and last name; insert the author on a miss.
Returns the events, the resolved author id and the updated AUTHORS table. -/
def authStep (d : Dict) (orc : Option String) (AUTHORS : Table) :
    List Event × Nat × Table :=
  let found : Option Nat :=
    match orc with
    | some o => (AUTHORS.rows.find? (fun r => rowGet r.2 "ORCID" == Value.vStr o)).map Prod.fst
    | none =>
      (AUTHORS.rows.find? (fun r =>
        rowGet r.2 "FIRSTNAME" == rowGet d "FIRSTNAME" &&
        rowGet r.2 "LASTNAME" == rowGet d "LASTNAME")).map Prod.fst
  let selEv : Event :=
    match orc with
    | some o => Event.selectAuthorByOrcid o
    | none => Event.selectAuthorByName (rowGet d "FIRSTNAME") (rowGet d "LASTNAME")
  match found with
  | some id => ([selEv], id, AUTHORS)
  | none =>
    let res := Util.myInsert d AUTHORS true true
    ([selEv, Event.insertAuthor d], res.id, res.table)

/-- The per-author loop of the article transaction (download.py lines 198-234):
skip empty first names, resolve each author, and link each distinct resolved
author id to the article exactly once. -/
def authLoop (orcids : List (Option String)) (article_id : Nat) :
    List String → Nat → DB → List Nat → List Event → List Event × Except PyErr DB
  | [], _, db, _, evs => (evs, Except.ok db)
  | auth :: rest, auth_i, db, seen, evs =>
    let d0 := Util.getSingleAuthorDict auth
    if rowGet d0 "FIRSTNAME" == Value.vStr "" then
      authLoop orcids article_id rest (auth_i + 1) db seen evs
    else
      match pyGet orcids auth_i with
      | Except.error e => (evs, Except.error e)
      | Except.ok orc =>
        let d := dictSet d0 "ORCID" (orc.elim Value.vNone Value.vStr)
        let step := authStep d orc db.AUTHORS
        let db2 : DB := { db with AUTHORS := step.2.2 }
        let auth_id := step.2.1
        if auth_id ∈ seen then
          authLoop orcids article_id rest (auth_i + 1) db2 seen (evs ++ step.1)
        else
          let link := [("ARTICLE_ID", Value.vInt article_id), ("AUTHOR_ID", Value.vInt auth_id)]
          let res := Util.myInsert link db2.ARTICLES_AUTHORS false false
          authLoop orcids article_id rest (auth_i + 1)
            { db2 with ARTICLES_AUTHORS := res.table } (auth_id :: seen)
            (evs ++ step.1 ++ [Event.insertLink article_id auth_id])

/-- The title tokenizer (download.py line 239): replace every non-alphanumeric
character by a space and split on single spaces, keeping empty pieces. -/
def titleTokens (title : String) : List String :=
  pySplit ' ' (String.mk (title.data.map (fun c => if c.isAlphanum then c else ' ')))

/-- The AddOrIncrementWord calls made for a title, one per token, lowercased. -/
def wordEvents (title : String) : List Event :=
  (titleTokens title).map (fun w => Event.callAddOrIncrementWord (lowerStr w))

/-- Effect of committing all AddOrIncrementWord calls for a title. -/
def applyWords (title : String) (ws : List (String × Nat)) : List (String × Nat) :=
  (titleTokens title).foldl (fun acc w => addOrIncrementWord (lowerStr w) acc) ws

/-- The string content of a dict value, as Python reads a stored title. -/
def asStr : Value → String
  | Value.vStr s => s
  | _ => ""

/-- The second try block (download.py lines 192-243): one transaction
inserting the article, resolving its authors and inserting link rows, rolled
back wholesale when an exception is raised inside it; then the per-word
procedure calls on the separate mysql.connector connection, committed
independently at the end.  wcFail injects a database fault at the k-th
procedure call, in which case the word store is never committed but the
already committed article transaction stands.  Returns events, the database,
the word store, and the exception caught by the outer handler, if any. -/
def stage2 (data : StageData) (db : DB) (words : List (String × Nat))
    (wcFail : Option Nat) : List Event × DB × List (String × Nat) × Option PyErr :=
  let res := Util.myInsert data.entry db.ARTICLES true true
  let article_id_last := res.id
  let db1 : DB := { db with ARTICLES := res.table }
  let lr := authLoop data.orcids article_id_last data.authors_proper 0 db1 []
    [Event.insertArticle data.entry]
  match lr.2 with
  | Except.error e => (lr.1, db, words, some e)
  | Except.ok db2 =>
    let title := asStr (rowGet data.entry "TITLE")
    match wcFail with
    | some k =>
      (lr.1 ++ (wordEvents title).take k, db2, words, some PyErr.dbError)
    | none =>
      (lr.1 ++ wordEvents title, db2, applyWords title words, none)

/-- What one card's processing tells the enclosing loops: continue with the
next card, break out of the page (for-loop break), or stop the whole crawl. -/
inductive ArtSignal where
  | next
  | pageBreak
  | fatal
deriving DecidableEq, Repr

/-- The body of the per-article for loop (download.py lines 131-252) for the
card at index i of the current page. -/
def processArticle (dw : String → NatureArticle.ArticleSoup) (wcFail : Option Nat)
    (page_num : Int) (i : Nat) (el : Nature.Card) (tr : Trace) : Trace × ArtSignal :=
  let tr1 : Trace := { tr with events := tr.events ++ [Event.logArticle i] }
  if 1000 ≤ i then
    ({ tr1 with events := tr1.events ++ [Event.logReachedArticles i] }, ArtSignal.pageBreak)
  else
    match extractPre dw el with
    | Except.error PyErr.indexError => (tr1, ArtSignal.next)
    | Except.error e =>
      ({ tr1 with events := tr1.events ++ [Event.logErr e] }, ArtSignal.pageBreak)
    | Except.ok pre =>
      let doiVal := rowGet pre.entry "DOI"
      let tr2 : Trace := { tr1 with events := tr1.events ++ [Event.selectArticleByDOI doiVal] }
      if Util.elemInDB doiVal "DOI" tr2.db.ARTICLES then
        ({ tr2 with events := tr2.events ++ [Event.logAlreadySeen] }, ArtSignal.next)
      else
        match extractPost el pre with
        | Except.error PyErr.indexError => (tr2, ArtSignal.next)
        | Except.error e =>
          ({ tr2 with events := tr2.events ++ [Event.logErr e] }, ArtSignal.pageBreak)
        | Except.ok data =>
          let r := stage2 data tr2.db tr2.words wcFail
          match r.2.2.2 with
          | none =>
            ({ db := r.2.1, words := r.2.2.1, events := tr2.events ++ r.1 }, ArtSignal.next)
          | some e =>
            ({ db := r.2.1, words := r.2.2.1,
               events := tr2.events ++ r.1 ++
                 [Event.logErrCtx page_num i (rowGet pre.entry "TITLE"), Event.logErr e] },
             ArtSignal.fatal)

/-- The per-article for loop over the page's cards; the returned flag is true
when an insertion-stage exception stopped the whole crawl (keepSeeking False). -/
def processCards (dw : String → NatureArticle.ArticleSoup) (wcFail : Nat → Option Nat)
    (page_num : Int) : List Nature.Card → Nat → Trace → Trace × Bool
  | [], _, tr => (tr, false)
  | el :: rest, i, tr =>
    match processArticle dw (wcFail i) page_num i el tr with
    | (tr2, ArtSignal.next) => processCards dw wcFail page_num rest (i + 1) tr2
    | (tr2, ArtSignal.pageBreak) => (tr2, false)
    | (tr2, ArtSignal.fatal) => (tr2, true)

/-- Why the pagination while loop stopped. -/
inductive StopReason where
  | maxReached
  | emptyPage
  | dbFatal
  | fuelOut
deriving DecidableEq, Repr

/-- Result of the crawl: the pages fetched in order, the final state and
trace, the stop reason, and the final page counter. -/
structure CrawlResult where
  visited : List Int
  trace : Trace
  reason : StopReason
  stop_page : Int
deriving DecidableEq, Repr

/-- The pagination while loop (download.py lines 103-252): stop when the page
counter has reached max_pages (with the distinct banner log), skip negative
page numbers, stop on a page with no article sections, and stop when an
insertion-stage exception set keepSeeking to False.  The fuel argument only
bounds the recursion; crawl passes enough for it never to run out. -/
def crawlGo (pw : Int → List Nature.Card) (dw : String → NatureArticle.ArticleSoup)
    (wcFail : Int → Nat → Option Nat) (max_pages : Int) :
    Nat → Int → Trace → List Int → CrawlResult
  | fuel, page_num, tr, visited =>
    if max_pages ≤ page_num then
      { visited := visited,
        trace := { tr with
          events := tr.events ++ [Event.logHashLines, Event.logExceededMax page_num] },
        reason := StopReason.maxReached, stop_page := page_num }
    else
      match fuel with
      | 0 => { visited := visited, trace := tr, reason := StopReason.fuelOut,
               stop_page := page_num }
      | n + 1 =>
        let pn := page_num + 1
        if pn < 0 then crawlGo pw dw wcFail max_pages n pn tr visited
        else
          let tr1 : Trace := { tr with events := tr.events ++ [Event.logPage pn] }
          let sections_to_read := pw pn
          if sections_to_read.length = 0 then
            { visited := visited ++ [pn], trace := tr1,
              reason := StopReason.emptyPage, stop_page := pn }
          else
            match processCards dw (wcFail pn) pn sections_to_read 0 tr1 with
            | (tr2, true) =>
              { visited := visited ++ [pn], trace := tr2,
                reason := StopReason.dbFatal, stop_page := pn }
            | (tr2, false) =>
              crawlGo pw dw wcFail max_pages n pn tr2 (visited ++ [pn])

/-- Fuel sufficient for the whole run: one unit per remaining page. -/
def crawlFuel (max_pages start_page : Int) : Nat := (max_pages - (start_page - 1)).toNat

/-- The whole crawl, from download.py's initial state: page counter start-1,
empty trace. -/
def crawl (pw : Int → List Nature.Card) (dw : String → NatureArticle.ArticleSoup)
    (wcFail : Int → Nat → Option Nat) (start_page max_pages : Int) (db0 : DB)
    (words0 : List (String × Nat)) : CrawlResult :=
  crawlGo pw dw wcFail max_pages (crawlFuel max_pages start_page) (start_page - 1)
    { db := db0, words := words0, events := [] } []

end Download

namespace Fix

open Download

/-- The reflected ARTICLES table, empty. -/
def ARTICLES0 : Table :=
  { cols := [⟨"ID", none⟩, ⟨"TITLE", some 255⟩, ⟨"TITLE_LINK", some 255⟩,
      ⟨"DOI", some 255⟩, ⟨"CITATIONS", none⟩, ⟨"ACCESSES", none⟩, ⟨"ALTMETRIC", none⟩,
      ⟨"RECEIVED", none⟩, ⟨"ACCEPTED", none⟩, ⟨"PUBLISHED", none⟩,
      ⟨"JOURNAL", some 255⟩, ⟨"ARTICLE_TYPE", some 255⟩, ⟨"DATE_PUBLISHED", some 255⟩,
      ⟨"FIRST_FIRSTNAME", some 255⟩, ⟨"FIRST_LASTNAME", some 255⟩,
      ⟨"SECOND_FIRSTNAME", some 255⟩, ⟨"SECOND_LASTNAME", some 255⟩,
      ⟨"THIRD_FIRSTNAME", some 255⟩, ⟨"THIRD_LASTNAME", some 255⟩],
    rows := [], nextId := 1 }

/-- The reflected AUTHORS table, empty. -/
def AUTHORS0 : Table :=
  { cols := [⟨"ID", none⟩, ⟨"FIRSTNAME", some 255⟩, ⟨"LASTNAME", some 255⟩,
      ⟨"ORCID", some 255⟩],
    rows := [], nextId := 1 }

/-- The reflected ARTICLES_AUTHORS link table, empty. -/
def LINKS0 : Table :=
  { cols := [⟨"ARTICLE_ID", none⟩, ⟨"AUTHOR_ID", none⟩], rows := [], nextId := 1 }

/-- An empty database with the reflected schemas. -/
def db0 : DB := { ARTICLES := ARTICLES0, AUTHORS := AUTHORS0, ARTICLES_AUTHORS := LINKS0 }

/-- A detail page with the given authors, ORCIDs, DOI, metric texts and
bibliographic date lines. -/
def mkSoup (auths : List String) (orcids : List (Option String)) (doiSuffix : String)
    (counts : List String) (dates : List String) : NatureArticle.ArticleSoup :=
  { articleAuthorLists := [auths],
    authorItems := orcids.map (fun o =>
      match o with
      | some oid => [⟨"", some ("https://orcid.org/" ++ oid)⟩]
      | none => []),
    bibValues := ["https://doi.org/" ++ doiSuffix],
    metricsWrappers := [counts],
    bibListItems := dates,
    infoDetails := [["Nature"]] }

/-- A detail page none of whose selectors match. -/
def soupDefault : NatureArticle.ArticleSoup := ⟨[], [], [], [], [], []⟩

/-- A complete listing card with the given title, relative link and authors. -/
def mkCard (t link : String) (auths : List String) : Nature.Card :=
  { cardLinks := [⟨t, some link⟩], authorListEls := [auths],
    metaTypes := ["Article"], timeDatetimes := [some "2023-03-14"] }

/-- A listing card with no matching .c-card__link element: title extraction
raises IndexError. -/
def cardBad : Nature.Card :=
  { cardLinks := [], authorListEls := [], metaTypes := [], timeDatetimes := [] }

/-- No injected word-count fault. -/
def wcNone : Int → Nat → Option Nat := fun _ _ => none

/-- A word-count fault injected at the first procedure call of every article. -/
def wcAll : Int → Nat → Option Nat := fun _ _ => some 0

/-- A well-formed detail page: two authors, one with an ORCID, a fresh DOI,
metrics and date lines. -/
def soupA : NatureArticle.ArticleSoup :=
  mkSoup ["Alice Smith", "Bob R Jones"] [some "0000-0001", none] "10.1/a1"
    ["12k Citations", "250 Accesses"] ["Received: 14 March 2023", "Published: 02 May 2023"]

/-- The listing card pointing at soupA. -/
def cardA : Nature.Card := mkCard "Gene therapy" "/articles/a1" ["Alice Smith", "Bob R Jones"]

/-- A detail page whose ORCID item list is shorter than its author list, so
the author loop inside the transaction raises IndexError. -/
def soupB : NatureArticle.ArticleSoup := mkSoup ["Carol Park"] [] "10.1/b1" ["5 Citations"] []

/-- The listing card pointing at soupB. -/
def cardB : Nature.Card := mkCard "Failing article" "/articles/b1" ["Carol Park"]

/-- The detail-page world serving soupA and soupB at their links. -/
def dwAB : String → NatureArticle.ArticleSoup := fun u =>
  if u = "https://www.nature.com/articles/a1" then soupA
  else if u = "https://www.nature.com/articles/b1" then soupB
  else soupDefault

/-- A listing world: page 1 has a broken card followed by a good card. -/
def pwBadGood : Int → List Nature.Card := fun n => if n = 1 then [cardBad, cardA] else []

/-- A listing world: page 1 has just the good card. -/
def pwA : Int → List Nature.Card := fun n => if n = 1 then [cardA] else []

/-- A listing world: page 1 has the good card then the failing card. -/
def pwAB : Int → List Nature.Card := fun n => if n = 1 then [cardA, cardB] else []

/-- A listing world: page 1 has just the failing card. -/
def pwB : Int → List Nature.Card := fun n => if n = 1 then [cardB] else []

/-- The empty initial crawl state. -/
def trEmpty : Download.Trace := { db := db0, words := [], events := [] }

/-- A database already holding an article with soupA's DOI. -/
def dbSeenA : Download.DB :=
  { db0 with ARTICLES :=
    { ARTICLES0 with rows := [(1, [("DOI", Value.vStr "10.1/a1")])], nextId := 2 } }

/-- The database produced by resolving the duplicated-ORCID author list of the
C4 witness run against db0: one author row and one link row. -/
def dbC4 : Download.DB :=
  { ARTICLES := ARTICLES0,
    AUTHORS := { AUTHORS0 with
      rows := [(1, [("FIRSTNAME", Value.vStr "Alice"),
        ("LASTNAME", Value.vStr "Smith"), ("ORCID", Value.vStr "o1")])],
      nextId := 2 },
    ARTICLES_AUTHORS := { LINKS0 with
      rows := [(1, [("ARTICLE_ID", Value.vInt 5), ("AUTHOR_ID", Value.vInt 1)])],
      nextId := 2 } }

/-- The pre-DOI extraction result for cardA against dwAB. -/
def preA : Download.PreData :=
  { entry := [("TITLE", Value.vStr "Gene therapy"),
      ("TITLE_LINK", Value.vStr "https://www.nature.com/articles/a1"),
      ("DOI", Value.vStr "10.1/a1"),
      ("CITATIONS", Value.vInt 12000),
      ("ACCESSES", Value.vInt 250),
      ("RECEIVED", Value.vStr "2023-03-14"),
      ("PUBLISHED", Value.vStr "2023-05-02"),
      ("JOURNAL", Value.vStr "Nature")],
    soup := soupA }

end Fix

/-! Shared lemmas about the embedded Python primitives. -/

theorem pySplitChar_ne_nil (c : Char) (l : List Char) : pySplitChar c l ≠ [] := by
  induction l with
  | nil => simp [pySplitChar]
  | cons x xs ih =>
    simp only [pySplitChar]
    split
    · simp
    · match h : pySplitChar c xs with
      | [] => simp
      | t :: ts => simp

theorem pySplitChar_cons_self (c : Char) (xs : List Char) :
    pySplitChar c (c :: xs) = [] :: pySplitChar c xs := by
  simp [pySplitChar]

theorem pySplitChar_cons_ne (c x : Char) (xs : List Char) (hx : x ≠ c) :
    pySplitChar c (x :: xs) =
      match pySplitChar c xs with
      | t :: ts => (x :: t) :: ts
      | [] => [[x]] := by
  simp [pySplitChar, hx]

theorem pySplitChar_append (c : Char) (a b : List Char) :
    pySplitChar c (a ++ c :: b) = pySplitChar c a ++ pySplitChar c b := by
  induction a with
  | nil => simp [pySplitChar]
  | cons x xs ih =>
    by_cases hx : x = c
    · subst hx
      rw [List.cons_append, pySplitChar_cons_self, pySplitChar_cons_self, ih]
      rfl
    · rw [List.cons_append, pySplitChar_cons_ne c x _ hx, pySplitChar_cons_ne c x xs hx, ih]
      cases h : pySplitChar c xs with
      | nil => exact absurd h (pySplitChar_ne_nil c xs)
      | cons t ts => rfl

theorem pySplitChar_of_not_mem (c : Char) (l : List Char) (h : c ∉ l) :
    pySplitChar c l = [l] := by
  induction l with
  | nil => rfl
  | cons x xs ih =>
    have hx : x ≠ c := fun e => h (e ▸ List.mem_cons_self x xs)
    have hxs : c ∉ xs := fun m => h (List.mem_cons_of_mem x m)
    simp only [pySplitChar, if_neg hx, ih hxs]

theorem mem_of_getLast?Eq {l : List α} {a : α} (h : l.getLast? = some a) : a ∈ l := by
  induction l with
  | nil => cases h
  | cons x xs ih =>
    cases xs with
    | nil =>
      have : x = a := by simpa using h
      simp [this]
    | cons y ys =>
      rw [List.getLast?_cons_cons] at h
      exact List.mem_cons_of_mem x (ih h)

theorem mem_of_head?Eq {l : List α} {a : α} (h : l.head? = some a) : a ∈ l := by
  cases l with
  | nil => cases h
  | cons x xs =>
    have : x = a := by simpa using h
    simp [this]

theorem digit_ne_of {c x : Char} (h : c.isDigit = true) (hx : x.isDigit = false) : c ≠ x := by
  intro e
  subst e
  rw [h] at hx
  cases hx

theorem digit_not_ws {c : Char} (h : c.isDigit = true) : c.isWhitespace = false := by
  rcases hw : c.isWhitespace with _ | _
  · rfl
  · exfalso
    have hcases := hw
    simp [Char.isWhitespace] at hcases
    rcases hcases with ((rfl | rfl) | rfl) | rfl <;> exact absurd h (by decide)

theorem dropWhile_cons_of_neg {p : Char → Bool} {x : Char} {xs : List Char}
    (h : p x = false) : List.dropWhile p (x :: xs) = x :: xs := by
  simp [List.dropWhile, h]

theorem dropWhile_of_head_neg {p : Char → Bool} {l : List Char}
    (h : ∀ y, l.head? = some y → p y = false) : List.dropWhile p l = l := by
  match l with
  | [] => rfl
  | x :: xs => exact dropWhile_cons_of_neg (h x rfl)

/-- A non-empty all-digit character list passes through stripping and parses
to its decimal value under pyInt. -/
theorem pyInt_digits (ds : List Char) (hne : ds ≠ []) (hd : ds.all Char.isDigit) :
    pyInt (String.mk ds) = Except.ok (digitsToNat ds) := by
  have hall : ∀ c ∈ ds, c.isDigit = true := List.all_eq_true.mp hd
  have hhead : ∀ y, ds.head? = some y → y.isWhitespace = false := by
    intro y hy
    exact digit_not_ws (hall y (mem_of_head?Eq hy))
  have hrev : ∀ y, ds.reverse.head? = some y → y.isWhitespace = false := by
    intro y hy
    have : y ∈ ds.reverse := mem_of_head?Eq hy
    exact digit_not_ws (hall y (List.mem_reverse.mp this))
  have h1 : ds.dropWhile Char.isWhitespace = ds := dropWhile_of_head_neg hhead
  have h2 : ds.reverse.dropWhile Char.isWhitespace = ds.reverse := dropWhile_of_head_neg hrev
  unfold pyInt
  simp only [h1, h2, List.reverse_reverse]
  have hplus : ds.head? ≠ some '+' := by
    intro e
    have := hall '+' (mem_of_head?Eq e)
    exact absurd this (by decide)
  have hminus : ds.head? ≠ some '-' := by
    intro e
    have := hall '-' (mem_of_head?Eq e)
    exact absurd this (by decide)
  rw [if_neg hplus, if_neg hminus]
  unfold pyIntCore
  rw [if_pos ⟨hne, hd⟩]
  rfl

/-- C2 counterexample: the count string "1.2k" does not parse — Python int()
rejects "1.2", so the metrics parse raises ValueError on it — refuting the
claim that "1.2k", "1k", "12k" and "250" all parse. -/
theorem C2_counterexample :
    NatureArticle.parseCount "1.2k" = Except.error PyErr.valueError ∧
    NatureArticle.parseCount "1k" = Except.ok 1000 ∧
    NatureArticle.parseCount "12k" = Except.ok 12000 ∧
    NatureArticle.parseCount "250" = Except.ok 250 := ⟨rfl, rfl, rfl, rfl⟩

/-- C2 (amended): for every integer count string (non-empty, all digits), the
metrics parse multiplies by 1000 when a k is appended and passes the plain
number through unchanged; count strings with a decimal point, such as "1.2k",
raise ValueError instead of parsing. -/
theorem C2_parseCount (ds : List Char) (hne : ds ≠ []) (hd : ds.all Char.isDigit) :
    NatureArticle.parseCount (String.mk (ds ++ ['k'])) =
      Except.ok ((digitsToNat ds : Int) * 1000) ∧
    NatureArticle.parseCount (String.mk ds) = Except.ok (digitsToNat ds) := by
  have hall : ∀ c ∈ ds, c.isDigit = true := List.all_eq_true.mp hd
  constructor
  · have hends : pyEndsWith 'k' (String.mk (ds ++ ['k'])) = true := by
      simp [pyEndsWith, String.mk]
    have hstrip : pyRstrip 'k' (String.mk (ds ++ ['k'])) = String.mk ds := by
      show String.mk (((ds ++ ['k']).reverse.dropWhile (fun x => x = 'k')).reverse) = String.mk ds
      have h1 : (ds ++ ['k']).reverse = 'k' :: ds.reverse := by simp
      rw [h1]
      have hdw : ('k' :: ds.reverse).dropWhile (fun x => x = 'k') =
          ds.reverse.dropWhile (fun x => x = 'k') := by
        simp [List.dropWhile]
      have hrest : ds.reverse.dropWhile (fun x => x = 'k') = ds.reverse := by
        apply dropWhile_of_head_neg
        intro y hy
        have hdig : y.isDigit = true :=
          hall y (List.mem_reverse.mp (mem_of_head?Eq hy))
        have hne2 : y ≠ 'k' := digit_ne_of hdig (by decide)
        simp [hne2]
      rw [hdw, hrest, List.reverse_reverse]
    unfold NatureArticle.parseCount
    rw [if_pos hends, hstrip, pyInt_digits ds hne hd]
    rfl
  · have hends : pyEndsWith 'k' (String.mk ds) = false := by
      unfold pyEndsWith
      simp only [decide_eq_false_iff_not]
      intro e
      have : 'k' ∈ ds := mem_of_getLast?Eq e
      exact absurd (hall 'k' this) (by decide)
    unfold NatureArticle.parseCount
    rw [if_neg (by simp [hends])]
    exact pyInt_digits ds hne hd

/-- C2 witness: the amended theorem at the concrete digits "12". -/
theorem C2_parseCount_witness :
    NatureArticle.parseCount (String.mk (['1', '2'] ++ ['k'])) = Except.ok ((digitsToNat ['1', '2'] : Int) * 1000) ∧
    NatureArticle.parseCount (String.mk ['1', '2']) = Except.ok (digitsToNat ['1', '2']) :=
  C2_parseCount ['1', '2'] (by decide) (by decide)

/-! Lemmas about the date rendering and parsing primitives, for C6. -/

theorem digitChar_isDigit (n : Nat) : (NatureArticle.digitChar n).isDigit = true := by
  unfold NatureArticle.digitChar
  have h : n % 10 < 10 := Nat.mod_lt n (by omega)
  generalize hm : n % 10 = m at h
  interval_cases m <;> decide

theorem digitVal_digitChar (n : Nat) : digitVal (NatureArticle.digitChar n) = n % 10 := by
  unfold NatureArticle.digitChar
  have h : n % 10 < 10 := Nat.mod_lt n (by omega)
  generalize hm : n % 10 = m at h ⊢
  interval_cases m <;> decide

theorem digitChar_not_ws (n : Nat) : (NatureArticle.digitChar n).isWhitespace = false :=
  digit_not_ws (digitChar_isDigit n)

theorem digitsToNat_pad2 (n : Nat) (h : n ≤ 99) : digitsToNat (NatureArticle.pad2 n) = n := by
  show digitsToNat [NatureArticle.digitChar (n / 10), NatureArticle.digitChar n] = n
  unfold digitsToNat
  simp only [List.foldl, digitVal_digitChar]
  omega

theorem digitsToNat_pad4 (n : Nat) (h : n ≤ 9999) : digitsToNat (NatureArticle.pad4 n) = n := by
  show digitsToNat [NatureArticle.digitChar (n / 1000), NatureArticle.digitChar (n / 100),
    NatureArticle.digitChar (n / 10), NatureArticle.digitChar n] = n
  unfold digitsToNat
  simp only [List.foldl, digitVal_digitChar]
  omega

theorem takeWhile_cons_pos {p : Char → Bool} {x : Char} {xs : List Char} (h : p x = true) :
    List.takeWhile p (x :: xs) = x :: xs.takeWhile p := by
  simp [List.takeWhile, h]

theorem takeWhile_cons_neg {p : Char → Bool} {x : Char} {xs : List Char} (h : p x = false) :
    List.takeWhile p (x :: xs) = [] := by
  simp [List.takeWhile, h]

theorem dropWhile_cons_pos {p : Char → Bool} {x : Char} {xs : List Char} (h : p x = true) :
    List.dropWhile p (x :: xs) = xs.dropWhile p := by
  simp [List.dropWhile, h]

theorem takeWhile_pad2 (d : Nat) (r : List Char) :
    (NatureArticle.pad2 d ++ ' ' :: r).takeWhile Char.isDigit = NatureArticle.pad2 d := by
  show (NatureArticle.digitChar (d / 10) :: NatureArticle.digitChar d :: ' ' :: r).takeWhile
    Char.isDigit = _
  rw [takeWhile_cons_pos (digitChar_isDigit _), takeWhile_cons_pos (digitChar_isDigit _),
    takeWhile_cons_neg (by decide)]
  rfl

theorem dropWhile_pad2 (d : Nat) (r : List Char) :
    (NatureArticle.pad2 d ++ ' ' :: r).dropWhile Char.isDigit = ' ' :: r := by
  show (NatureArticle.digitChar (d / 10) :: NatureArticle.digitChar d :: ' ' :: r).dropWhile
    Char.isDigit = _
  rw [dropWhile_cons_pos (digitChar_isDigit _), dropWhile_cons_pos (digitChar_isDigit _),
    dropWhile_cons_of_neg (by decide)]

theorem takeWhile_pad4 (y : Nat) : (NatureArticle.pad4 y).takeWhile Char.isDigit =
    NatureArticle.pad4 y := by
  show (NatureArticle.digitChar (y / 1000) :: NatureArticle.digitChar (y / 100) ::
    NatureArticle.digitChar (y / 10) :: NatureArticle.digitChar y :: []).takeWhile Char.isDigit = _
  rw [takeWhile_cons_pos (digitChar_isDigit _), takeWhile_cons_pos (digitChar_isDigit _),
    takeWhile_cons_pos (digitChar_isDigit _), takeWhile_cons_pos (digitChar_isDigit _)]
  rfl

theorem dropWhile_pad4 (y : Nat) : (NatureArticle.pad4 y).dropWhile Char.isDigit = [] := by
  show (NatureArticle.digitChar (y / 1000) :: NatureArticle.digitChar (y / 100) ::
    NatureArticle.digitChar (y / 10) :: NatureArticle.digitChar y :: []).dropWhile Char.isDigit = _
  rw [dropWhile_cons_pos (digitChar_isDigit _), dropWhile_cons_pos (digitChar_isDigit _),
    dropWhile_cons_pos (digitChar_isDigit _), dropWhile_cons_pos (digitChar_isDigit _)]
  rfl

theorem daysInMonth_le_31 (m y : Nat) : NatureArticle.daysInMonth m y ≤ 31 := by
  unfold NatureArticle.daysInMonth
  split
  · split <;> omega
  · split <;> omega

/-- The core of the C6 round trip: parsing a rendered d-Month-y date string
recovers exactly the rendered components. -/
theorem strptimeDMYChars_roundtrip (mon : List Char) (m d y : Nat)
    (hmon : ∀ tail, NatureArticle.matchMonth (mon ++ tail) = some (m, tail))
    (hmonhead : ∃ c cs, mon = c :: cs ∧ c.isDigit = false ∧ c.isWhitespace = false)
    (hd1 : 1 ≤ d) (hd2 : d ≤ NatureArticle.daysInMonth m y)
    (hy1 : 1 ≤ y) (hy2 : y ≤ 9999) :
    NatureArticle.strptimeDMYChars
      (NatureArticle.pad2 d ++ ' ' :: (mon ++ ' ' :: NatureArticle.pad4 y)) =
      Except.ok (d, m, y) := by
  obtain ⟨c, cs, hmoneq, hcd, hcw⟩ := hmonhead
  have hd99 : d ≤ 99 := le_trans hd2 (le_trans (daysInMonth_le_31 m y) (by omega))
  have hws1 : (' ' :: (mon ++ ' ' :: NatureArticle.pad4 y)).takeWhile Char.isWhitespace =
      [' '] := by
    rw [takeWhile_cons_pos (by decide), hmoneq, List.cons_append, takeWhile_cons_neg hcw]
  have hws1d : (' ' :: (mon ++ ' ' :: NatureArticle.pad4 y)).dropWhile Char.isWhitespace =
      mon ++ ' ' :: NatureArticle.pad4 y := by
    rw [dropWhile_cons_pos (by decide), hmoneq, List.cons_append, dropWhile_cons_of_neg hcw]
  have hpad4tw : (NatureArticle.pad4 y).takeWhile Char.isWhitespace = [] := by
    show (NatureArticle.digitChar (y / 1000) :: NatureArticle.digitChar (y / 100) ::
      NatureArticle.digitChar (y / 10) :: NatureArticle.digitChar y :: []).takeWhile
      Char.isWhitespace = []
    rw [takeWhile_cons_neg (digitChar_not_ws _)]
  have hpad4dw : (NatureArticle.pad4 y).dropWhile Char.isWhitespace =
      NatureArticle.pad4 y := by
    show (NatureArticle.digitChar (y / 1000) :: NatureArticle.digitChar (y / 100) ::
      NatureArticle.digitChar (y / 10) :: NatureArticle.digitChar y :: []).dropWhile
      Char.isWhitespace = _
    rw [dropWhile_cons_of_neg (digitChar_not_ws _)]
    rfl
  have hws2 : (' ' :: NatureArticle.pad4 y).takeWhile Char.isWhitespace = [' '] := by
    rw [takeWhile_cons_pos (by decide), hpad4tw]
  have hws2d : (' ' :: NatureArticle.pad4 y).dropWhile Char.isWhitespace =
      NatureArticle.pad4 y := by
    rw [dropWhile_cons_pos (by decide), hpad4dw]
  unfold NatureArticle.strptimeDMYChars
  rw [takeWhile_pad2, dropWhile_pad2]
  rw [if_neg (by
    show ¬((NatureArticle.pad2 d).length < 1 ∨ 2 < (NatureArticle.pad2 d).length)
    show ¬(2 < 1 ∨ 2 < 2)
    omega)]
  rw [digitsToNat_pad2 d hd99]
  rw [if_neg (by
    have := daysInMonth_le_31 m y
    omega)]
  rw [hws1, hws1d]
  rw [if_neg (by simp)]
  rw [hmon (' ' :: NatureArticle.pad4 y)]
  simp only [hws2, hws2d, takeWhile_pad4, dropWhile_pad4]
  rw [if_neg (by simp)]
  rw [if_neg (by simp [NatureArticle.pad4])]
  rw [digitsToNat_pad4 y hy2]
  rw [if_neg (by omega)]

theorem colon_ne_digitChar (n : Nat) : ':' ≠ NatureArticle.digitChar n := by
  intro e
  have h := digitChar_isDigit n
  rw [← e] at h
  exact absurd h (by decide)

theorem colon_not_mem_pad2 (n : Nat) : ':' ∉ NatureArticle.pad2 n := by
  intro h
  rcases List.mem_cons.mp h with h1 | h1
  · exact colon_ne_digitChar _ h1
  rcases List.mem_cons.mp h1 with h2 | h2
  · exact colon_ne_digitChar _ h2
  · exact absurd h2 (List.not_mem_nil ':')

theorem colon_not_mem_pad4 (n : Nat) : ':' ∉ NatureArticle.pad4 n := by
  intro h
  rcases List.mem_cons.mp h with h1 | h1
  · exact colon_ne_digitChar _ h1
  rcases List.mem_cons.mp h1 with h2 | h2
  · exact colon_ne_digitChar _ h2
  rcases List.mem_cons.mp h2 with h3 | h3
  · exact colon_ne_digitChar _ h3
  rcases List.mem_cons.mp h3 with h4 | h4
  · exact colon_ne_digitChar _ h4
  · exact absurd h4 (List.not_mem_nil ':')

theorem stripStr_space (body : List Char)
    (hh : ∀ c, body.head? = some c → c.isWhitespace = false)
    (hl : ∀ c, body.getLast? = some c → c.isWhitespace = false) :
    stripStr (String.mk (' ' :: body)) = String.mk body := by
  unfold stripStr
  show String.mk ((((' ' :: body).dropWhile Char.isWhitespace).reverse.dropWhile
    Char.isWhitespace).reverse) = _
  rw [dropWhile_cons_pos (by decide), dropWhile_of_head_neg hh,
    dropWhile_of_head_neg (fun c hc => hl c (by rwa [← List.head?_reverse])),
    List.reverse_reverse]

/-- dateList on a bibliographic line "Received: DD Month YYYY" built from day,
month and year components yields exactly the ISO rendering of the same
components, for any month name the parser recognises. -/
theorem dateList_received (mon : List Char) (m d y : Nat)
    (hmon : ∀ tail, NatureArticle.matchMonth (mon ++ tail) = some (m, tail))
    (hmonhead : ∃ c cs, mon = c :: cs ∧ c.isDigit = false ∧ c.isWhitespace = false)
    (hnc : ':' ∉ mon)
    (hd1 : 1 ≤ d) (hd2 : d ≤ NatureArticle.daysInMonth m y)
    (hy1 : 1 ≤ y) (hy2 : y ≤ 9999) :
    NatureArticle.dateList
      { articleAuthorLists := [], authorItems := [], bibValues := [], metricsWrappers := [],
        bibListItems := [String.mk ("Received".data ++ ':' :: ' ' ::
          (NatureArticle.pad2 d ++ ' ' :: (mon ++ ' ' :: NatureArticle.pad4 y)))],
        infoDetails := [] } =
      Except.ok [("RECEIVED", Value.vStr (String.mk
        (NatureArticle.pad4 y ++ '-' :: NatureArticle.pad2 m ++ '-' ::
          NatureArticle.pad2 d)))] := by
  obtain ⟨c, cs, hmoneq, hcd, hcw⟩ := hmonhead
  have hncbody : ':' ∉ (' ' :: (NatureArticle.pad2 d ++ ' ' ::
      (mon ++ ' ' :: NatureArticle.pad4 y))) := by
    intro hmem
    rcases List.mem_cons.mp hmem with h | hmem
    · exact absurd h (by decide)
    rcases List.mem_append.mp hmem with h | hmem
    · exact colon_not_mem_pad2 d h
    rcases List.mem_cons.mp hmem with h | hmem
    · exact absurd h (by decide)
    rcases List.mem_append.mp hmem with h | hmem
    · exact hnc h
    rcases List.mem_cons.mp hmem with h | hmem
    · exact absurd h (by decide)
    · exact colon_not_mem_pad4 y hmem
  have hsplit : pySplit ':' (String.mk ("Received".data ++ ':' :: ' ' ::
      (NatureArticle.pad2 d ++ ' ' :: (mon ++ ' ' :: NatureArticle.pad4 y)))) =
      ["Received", String.mk (' ' :: (NatureArticle.pad2 d ++ ' ' ::
        (mon ++ ' ' :: NatureArticle.pad4 y)))] := by
    unfold pySplit
    show (pySplitChar ':' ("Received".data ++ ':' :: ' ' ::
      (NatureArticle.pad2 d ++ ' ' :: (mon ++ ' ' :: NatureArticle.pad4 y)))).map _ = _
    rw [pySplitChar_append, pySplitChar_of_not_mem ':' _ (by decide),
      pySplitChar_of_not_mem ':' _ hncbody]
    rfl
  have hlast : (NatureArticle.pad2 d ++ ' ' :: (mon ++ ' ' ::
      NatureArticle.pad4 y)).getLast? = some (NatureArticle.digitChar y) := by
    rw [List.getLast?_append_of_ne_nil _ (by simp)]
    rw [show (' ' :: (mon ++ ' ' :: NatureArticle.pad4 y)) =
      (' ' :: mon) ++ (' ' :: NatureArticle.pad4 y) from by simp]
    rw [List.getLast?_append_of_ne_nil _ (by simp)]
    rw [show (' ' :: NatureArticle.pad4 y) =
      (' ' :: NatureArticle.digitChar (y / 1000) :: NatureArticle.digitChar (y / 100) ::
        NatureArticle.digitChar (y / 10) :: []) ++ [NatureArticle.digitChar y] from rfl]
    rw [List.getLast?_concat]
  have hstrip : stripStr (String.mk (' ' :: (NatureArticle.pad2 d ++ ' ' ::
      (mon ++ ' ' :: NatureArticle.pad4 y)))) =
      String.mk (NatureArticle.pad2 d ++ ' ' :: (mon ++ ' ' :: NatureArticle.pad4 y)) := by
    apply stripStr_space
    · intro ch hch
      have : ch = NatureArticle.digitChar (d / 10) := by
        rw [show (NatureArticle.pad2 d ++ ' ' :: (mon ++ ' ' ::
          NatureArticle.pad4 y)).head? = some (NatureArticle.digitChar (d / 10)) from rfl] at hch
        exact (Option.some.inj hch).symm
      rw [this]
      exact digitChar_not_ws _
    · intro ch hch
      rw [hlast] at hch
      rw [(Option.some.inj hch).symm]
      exact digitChar_not_ws _
  have hparse : NatureArticle.strptimeDMY (String.mk (NatureArticle.pad2 d ++ ' ' ::
      (mon ++ ' ' :: NatureArticle.pad4 y))) = Except.ok (d, m, y) :=
    strptimeDMYChars_roundtrip mon m d y hmon ⟨c, cs, hmoneq, hcd, hcw⟩ hd1 hd2 hy1 hy2
  have hstep : NatureArticle.dateListStep []
      (String.mk ("Received".data ++ ':' :: ' ' ::
        (NatureArticle.pad2 d ++ ' ' :: (mon ++ ' ' :: NatureArticle.pad4 y)))) =
      Except.ok [("RECEIVED", Value.vStr (String.mk
        (NatureArticle.pad4 y ++ '-' :: NatureArticle.pad2 m ++ '-' ::
          NatureArticle.pad2 d)))] := by
    unfold NatureArticle.dateListStep
    rw [hsplit]
    show (NatureArticle.strptimeDMY (stripStr (String.mk (' ' ::
        (NatureArticle.pad2 d ++ ' ' :: (mon ++ ' ' :: NatureArticle.pad4 y))))) >>=
      fun dmy => pure (dictSet [] (upperStr "Received")
        (Value.vStr (NatureArticle.strftimeYMD dmy.1 dmy.2.1 dmy.2.2)))) = _
    rw [hstrip, hparse]
    rfl
  unfold NatureArticle.dateList
  show NatureArticle.dateListStep [] (String.mk ("Received".data ++ ':' :: ' ' ::
      (NatureArticle.pad2 d ++ ' ' :: (mon ++ ' ' :: NatureArticle.pad4 y)))) >>=
    (fun b => List.foldlM NatureArticle.dateListStep b []) = _
  rw [hstep]
  rfl

/-- C6 (confirmed): for every bibliographic date in "DD Month YYYY" form — any
valid day, month and year up to 9999 — dateList produces the zero-padded ISO
8601 string "YYYY-MM-DD" under the upper-cased label. -/
theorem C6_dateList (d m y : Nat) (hm1 : 1 ≤ m) (hm2 : m ≤ 12) (hd1 : 1 ≤ d)
    (hd2 : d ≤ NatureArticle.daysInMonth m y) (hy1 : 1 ≤ y) (hy2 : y ≤ 9999) :
    NatureArticle.dateList
      { articleAuthorLists := [], authorItems := [], bibValues := [], metricsWrappers := [],
        bibListItems := [String.mk ("Received".data ++ ':' :: ' ' ::
          (NatureArticle.pad2 d ++ ' ' :: ((NatureArticle.monthCap m).data ++ ' ' ::
            NatureArticle.pad4 y)))],
        infoDetails := [] } =
      Except.ok [("RECEIVED", Value.vStr (String.mk
        (NatureArticle.pad4 y ++ '-' :: NatureArticle.pad2 m ++ '-' ::
          NatureArticle.pad2 d)))] := by
  interval_cases m <;>
    exact dateList_received _ _ d y (fun tail => rfl) ⟨_, _, rfl, by decide, by decide⟩
      (by decide) hd1 hd2 hy1 hy2

/-- C6 witness: the date "14 March 2023" normalizes to "2023-03-14". -/
theorem C6_dateList_witness :
    NatureArticle.dateList
      { articleAuthorLists := [], authorItems := [], bibValues := [], metricsWrappers := [],
        bibListItems := ["Received: 14 March 2023"], infoDetails := [] } =
      Except.ok [("RECEIVED", Value.vStr "2023-03-14")] := by
  have h := C6_dateList 14 3 2023 (by decide) (by decide) (by decide) (by decide)
    (by decide) (by decide)
  have heq : String.mk ("Received".data ++ ':' :: ' ' ::
      (NatureArticle.pad2 14 ++ ' ' :: ((NatureArticle.monthCap 3).data ++ ' ' ::
        NatureArticle.pad4 2023))) = "Received: 14 March 2023" := by decide
  have hiso : String.mk (NatureArticle.pad4 2023 ++ '-' :: NatureArticle.pad2 3 ++ '-' ::
      NatureArticle.pad2 14) = "2023-03-14" := by decide
  rw [heq, hiso] at h
  exact h

/-- C10 (confirmed): whenever a title has a leading, trailing, or two
consecutive non-alphanumeric characters, the tokenizer emits an empty-string
token, and the AddOrIncrementWord procedure is invoked with the empty string
(tokens are lowercased, and the lowercase of "" is ""). -/
theorem C10_empty_tokens (title : String)
    (h : (∃ ch t, title.data = ch :: t ∧ ch.isAlphanum = false) ∨
         (∃ ch t, title.data = t ++ [ch] ∧ ch.isAlphanum = false) ∨
         (∃ u c1 c2 v, title.data = u ++ c1 :: c2 :: v ∧ c1.isAlphanum = false ∧
           c2.isAlphanum = false)) :
    "" ∈ Download.titleTokens title ∧
    Download.Event.callAddOrIncrementWord "" ∈ Download.wordEvents title := by
  have key : [] ∈ pySplitChar ' '
      (title.data.map (fun c => if c.isAlphanum then c else ' ')) := by
    rcases h with ⟨ch, t, he, hna⟩ | ⟨ch, t, he, hna⟩ | ⟨u, c1, c2, v, he, hna1, hna2⟩
    · rw [he]
      simp only [List.map_cons, hna, Bool.false_eq_true, if_false]
      rw [pySplitChar_cons_self]
      exact List.mem_cons_self _ _
    · rw [he]
      simp only [List.map_append, List.map_cons, List.map_nil, hna, Bool.false_eq_true,
        if_false]
      rw [pySplitChar_append]
      exact List.mem_append_right _ (by
        rw [show pySplitChar ' ' ([] : List Char) = [[]] from rfl]
        exact List.mem_cons_self _ _)
    · rw [he]
      simp only [List.map_append, List.map_cons, hna1, hna2, Bool.false_eq_true, if_false]
      rw [pySplitChar_append]
      refine List.mem_append_right _ ?_
      rw [pySplitChar_cons_self]
      exact List.mem_cons_self _ _
  have htok : "" ∈ Download.titleTokens title := List.mem_map.mpr ⟨[], key, rfl⟩
  exact ⟨htok, List.mem_map.mpr ⟨"", htok, rfl⟩⟩

/-- C10 witness: the parenthesised title "(x)" yields an empty token and an
AddOrIncrementWord call on the empty string. -/
theorem C10_empty_tokens_witness :
    "" ∈ Download.titleTokens "(x)" ∧
    Download.Event.callAddOrIncrementWord "" ∈ Download.wordEvents "(x)" :=
  C10_empty_tokens "(x)" (Or.inl ⟨'(', ['x', ')'], by decide, by decide⟩)

/-- C8 (confirmed): a name without a space yields an empty derived FIRSTNAME,
and the author loop skips an empty-FIRSTNAME entry entirely: no lookup, no
author insert, no link row — the loop state passes through unchanged. -/
theorem C8_empty_firstname_skip (auth : String) (orcids : List (Option String))
    (article_id : Nat) (rest : List String) (auth_i : Nat) (db : Download.DB)
    (seen : List Nat) (evs : List Download.Event) :
    (¬ ' ' ∈ auth.data →
      rowGet (Util.getSingleAuthorDict auth) "FIRSTNAME" = Value.vStr "") ∧
    (rowGet (Util.getSingleAuthorDict auth) "FIRSTNAME" = Value.vStr "" →
      Download.authLoop orcids article_id (auth :: rest) auth_i db seen evs =
        Download.authLoop orcids article_id rest (auth_i + 1) db seen evs) := by
  constructor
  · intro hns
    unfold Util.getSingleAuthorDict
    rw [show pySplit ' ' auth = [String.mk auth.data] from by
      unfold pySplit
      rw [pySplitChar_of_not_mem ' ' auth.data hns]
      rfl]
    rfl
  · intro hfn
    simp only [Download.authLoop, hfn]
    rw [if_pos (by simp)]

/-- C8 witness: the single-token corporate name "IBM" derives an empty
FIRSTNAME and is skipped by the author loop without any state change. -/
theorem C8_empty_firstname_skip_witness :
    rowGet (Util.getSingleAuthorDict "IBM") "FIRSTNAME" = Value.vStr "" ∧
    Download.authLoop [] 1 ["IBM"] 0 Fix.db0 [] [] =
      Download.authLoop [] 1 [] 1 Fix.db0 [] [] := by
  have h := C8_empty_firstname_skip "IBM" [] 1 [] 0 Fix.db0 [] []
  exact ⟨h.1 (by decide), h.2 (h.1 (by decide))⟩

/-- C5 (confirmed): author resolution selects by ORCID when one was extracted
and by (FIRSTNAME, LASTNAME) otherwise; a hit returns the existing author id
and leaves the AUTHORS table unchanged (no duplicate row), and a miss inserts
the author and returns the auto-generated id (the table's next id). -/
theorem C5_author_resolution (d : Dict) (AUTHORS : Table) :
    (∀ o id row,
      AUTHORS.rows.find? (fun r => rowGet r.2 "ORCID" == Value.vStr o) = some (id, row) →
      Download.authStep d (some o) AUTHORS =
        ([Download.Event.selectAuthorByOrcid o], id, AUTHORS)) ∧
    (∀ o,
      AUTHORS.rows.find? (fun r => rowGet r.2 "ORCID" == Value.vStr o) = none →
      Download.authStep d (some o) AUTHORS =
        ([Download.Event.selectAuthorByOrcid o, Download.Event.insertAuthor d],
          AUTHORS.nextId,
          { AUTHORS with
            rows := AUTHORS.rows ++
              [(AUTHORS.nextId, Util.truncateEntries (Util.removeNones d) AUTHORS)],
            nextId := AUTHORS.nextId + 1 })) ∧
    (∀ id row,
      AUTHORS.rows.find? (fun r =>
        rowGet r.2 "FIRSTNAME" == rowGet d "FIRSTNAME" &&
        rowGet r.2 "LASTNAME" == rowGet d "LASTNAME") = some (id, row) →
      Download.authStep d none AUTHORS =
        ([Download.Event.selectAuthorByName (rowGet d "FIRSTNAME") (rowGet d "LASTNAME")],
          id, AUTHORS)) ∧
    (AUTHORS.rows.find? (fun r =>
        rowGet r.2 "FIRSTNAME" == rowGet d "FIRSTNAME" &&
        rowGet r.2 "LASTNAME" == rowGet d "LASTNAME") = none →
      Download.authStep d none AUTHORS =
        ([Download.Event.selectAuthorByName (rowGet d "FIRSTNAME") (rowGet d "LASTNAME"),
          Download.Event.insertAuthor d],
          AUTHORS.nextId,
          { AUTHORS with
            rows := AUTHORS.rows ++
              [(AUTHORS.nextId, Util.truncateEntries (Util.removeNones d) AUTHORS)],
            nextId := AUTHORS.nextId + 1 })) := by
  refine ⟨?_, ?_, ?_, ?_⟩
  · intro o id row h
    simp only [Download.authStep]
    rw [h]
    rfl
  · intro o h
    simp only [Download.authStep]
    rw [h]
    rfl
  · intro id row h
    simp only [Download.authStep]
    rw [h]
    rfl
  · intro h
    simp only [Download.authStep]
    rw [h]
    rfl

/-- C3 (confirmed): when the extracted DOI is already in ARTICLES, the
article's processing stops before the insert path: the only new events are the
progress print, the DOI existence select and the skip log — no author lookup,
no insert of any kind — the database and word store are unchanged, and the
loop continues with the next article (signal next, not an error). -/
theorem C3_doi_skip (dw : String → NatureArticle.ArticleSoup) (wc : Option Nat)
    (pn : Int) (i : Nat) (el : Nature.Card) (tr : Download.Trace) (pre : Download.PreData)
    (hi : i < 1000)
    (hpre : Download.extractPre dw el = Except.ok pre)
    (hdoi : Util.elemInDB (rowGet pre.entry "DOI") "DOI" tr.db.ARTICLES = true) :
    Download.processArticle dw wc pn i el tr =
      ({ tr with events := tr.events ++ [Download.Event.logArticle i,
          Download.Event.selectArticleByDOI (rowGet pre.entry "DOI"),
          Download.Event.logAlreadySeen] }, Download.ArtSignal.next) := by
  have h1000 : ¬ 1000 ≤ i := by omega
  simp only [Download.processArticle, h1000, if_false, hpre, hdoi, ite_true, ite_false,
    eq_self_iff_true, if_true]
  simp [List.append_assoc]

/-- C3 witness: cardA's DOI is already present in dbSeenA, so its processing
only logs the skip and leaves the state untouched. -/
theorem C3_doi_skip_witness :
    Download.processArticle Fix.dwAB none 1 0 Fix.cardA
      { db := Fix.dbSeenA, words := [], events := [] } =
      ({ db := Fix.dbSeenA, words := [], events := [Download.Event.logArticle 0,
        Download.Event.selectArticleByDOI (Value.vStr "10.1/a1"),
        Download.Event.logAlreadySeen] }, Download.ArtSignal.next) := by
  have h := C3_doi_skip Fix.dwAB none 1 0 Fix.cardA
    { db := Fix.dbSeenA, words := [], events := [] } Fix.preA (by decide) (by decide)
    (by decide)
  exact h.trans (by decide)

/-- C1 counterexample: on a page whose card 0 cannot yield a title (IndexError)
while card 1 is fine, the loop does not stop at card 0 — the card at the
larger index 1 is still processed and its article inserted, refuting the claim
that no card at an index greater than i is processed or inserted. -/
theorem C1_counterexample :
    Nature.title Fix.cardBad = Except.error PyErr.indexError ∧
    ((Download.processCards Fix.dwAB (fun _ => none) 1 [Fix.cardBad, Fix.cardA] 0
        Fix.trEmpty).1.db.ARTICLES.rows.map (fun r => rowGet r.2 "TITLE")) =
      [Value.vStr "Gene therapy"] ∧
    (Download.processCards Fix.dwAB (fun _ => none) 1 [Fix.cardBad, Fix.cardA] 0
        Fix.trEmpty).2 = false :=
  ⟨rfl, by decide, by decide⟩

/-- C1 (amended): when title or link extraction of the card at index i raises
IndexError, that card alone is skipped — nothing of it is inserted and only
its progress print is logged — and the loop continues with the cards after it;
the exception never propagates past the page boundary. -/
theorem C1_indexError_continue (dw : String → NatureArticle.ArticleSoup)
    (wc : Nat → Option Nat) (pn : Int) (el : Nature.Card) (rest : List Nature.Card)
    (i : Nat) (tr : Download.Trace)
    (hi : i < 1000)
    (hpre : Download.extractPre dw el = Except.error PyErr.indexError) :
    Download.processCards dw wc pn (el :: rest) i tr =
      Download.processCards dw wc pn rest (i + 1)
        { tr with events := tr.events ++ [Download.Event.logArticle i] } := by
  have h1000 : ¬ 1000 ≤ i := by omega
  simp only [Download.processCards, Download.processArticle, h1000, if_false, hpre,
    ite_true, ite_false]

/-- C1 witness: the amended theorem at the broken card, index 0. -/
theorem C1_indexError_continue_witness :
    Download.processCards Fix.dwAB (fun _ => none) 1 [Fix.cardBad] 0 Fix.trEmpty =
      Download.processCards Fix.dwAB (fun _ => none) 1 [] 1
        { Fix.trEmpty with events := Fix.trEmpty.events ++ [Download.Event.logArticle 0] } :=
  C1_indexError_continue Fix.dwAB (fun _ => none) 1 Fix.cardBad [] 0 Fix.trEmpty
    (by decide) (by decide)

/-- C9 (confirmed): the word-count store is updated on a separate,
independently committed connection.  Run 1: a word-count fault after the
article transaction has committed leaves the article row in ARTICLES while
none of its title words are counted.  Run 2: word counts committed for the
first article are not rolled back by the second article's failed, rolled-back
transaction (only the first article's row exists, its words stay counted, and
the crawl stops fatally). -/
theorem C9_word_count_gap :
    ((Download.crawl Fix.pwA Fix.dwAB Fix.wcAll 1 50 Fix.db0 []).trace.db.ARTICLES.rows.map
      (fun r => rowGet r.2 "TITLE") = [Value.vStr "Gene therapy"] ∧
     (Download.crawl Fix.pwA Fix.dwAB Fix.wcAll 1 50 Fix.db0 []).trace.words = [] ∧
     (Download.crawl Fix.pwA Fix.dwAB Fix.wcAll 1 50 Fix.db0 []).reason =
       Download.StopReason.dbFatal) ∧
    ((Download.crawl Fix.pwAB Fix.dwAB Fix.wcNone 1 50 Fix.db0 []).trace.words =
       [("gene", 1), ("therapy", 1)] ∧
     (Download.crawl Fix.pwAB Fix.dwAB Fix.wcNone 1 50 Fix.db0 []).trace.db.ARTICLES.rows.map
       (fun r => rowGet r.2 "TITLE") = [Value.vStr "Gene therapy"] ∧
     (Download.crawl Fix.pwAB Fix.dwAB Fix.wcNone 1 50 Fix.db0 []).reason =
       Download.StopReason.dbFatal) :=
  ⟨⟨by decide, by decide, by decide⟩, ⟨by decide, by decide, by decide⟩⟩

/-- C7 counterexample: a crawl can also terminate through an insertion-stage
exception — here at page 1, whose card list is non-empty and with the page
counter far below the maximum — so the loop does not terminate exactly when a
page is empty or the maximum is reached. -/
theorem C7_counterexample :
    (Download.crawl Fix.pwB Fix.dwAB Fix.wcNone 1 50 Fix.db0 []).reason =
      Download.StopReason.dbFatal ∧
    (Fix.pwB 1).length ≠ 0 ∧ ((1 : Int) < 50) :=
  ⟨by decide, by decide, by decide⟩

theorem crawlGo_not_fuelOut (pw : Int → List Nature.Card)
    (dw : String → NatureArticle.ArticleSoup) (wc : Int → Nat → Option Nat) (mp : Int) :
    ∀ (fuel : Nat) (pn : Int) (tr : Download.Trace) (visited : List Int),
      (mp - pn).toNat ≤ fuel →
      (Download.crawlGo pw dw wc mp fuel pn tr visited).reason ≠
        Download.StopReason.fuelOut := by
  intro fuel
  induction fuel with
  | zero =>
    intro pn tr visited hf
    have hmax : mp ≤ pn := by omega
    simp only [Download.crawlGo, if_pos hmax]
    simp
  | succ n ih =>
    intro pn tr visited hf
    by_cases hmax : mp ≤ pn
    · simp only [Download.crawlGo, if_pos hmax]
      simp
    · simp only [Download.crawlGo, if_neg hmax]
      by_cases hneg : pn + 1 < 0
      · rw [if_pos hneg]
        exact ih (pn + 1) tr visited (by omega)
      · rw [if_neg hneg]
        by_cases hempty : (pw (pn + 1)).length = 0
        · rw [if_pos hempty]
          simp
        · rw [if_neg hempty]
          cases hpc : Download.processCards dw (wc (pn + 1)) (pn + 1) (pw (pn + 1)) 0
            { tr with events := tr.events ++ [Download.Event.logPage (pn + 1)] } with
          | mk tr2 fatal =>
            cases fatal
            · simp only [hpc]
              exact ih (pn + 1) tr2 (visited ++ [pn + 1]) (by omega)
            · simp only [hpc]
              simp

theorem crawlGo_maxReached_log (pw : Int → List Nature.Card)
    (dw : String → NatureArticle.ArticleSoup) (wc : Int → Nat → Option Nat) (mp : Int) :
    ∀ (fuel : Nat) (pn : Int) (tr : Download.Trace) (visited : List Int),
      (Download.crawlGo pw dw wc mp fuel pn tr visited).reason =
        Download.StopReason.maxReached →
      Download.Event.logHashLines ∈
        (Download.crawlGo pw dw wc mp fuel pn tr visited).trace.events ∧
      Download.Event.logExceededMax
          (Download.crawlGo pw dw wc mp fuel pn tr visited).stop_page ∈
        (Download.crawlGo pw dw wc mp fuel pn tr visited).trace.events := by
  intro fuel
  induction fuel with
  | zero =>
    intro pn tr visited hr
    by_cases hmax : mp ≤ pn
    · simp only [Download.crawlGo, if_pos hmax]
      constructor
      · exact List.mem_append_right _ (by simp)
      · exact List.mem_append_right _ (by simp)
    · simp only [Download.crawlGo, if_neg hmax] at hr
      simp at hr
  | succ n ih =>
    intro pn tr visited hr
    by_cases hmax : mp ≤ pn
    · simp only [Download.crawlGo, if_pos hmax]
      constructor
      · exact List.mem_append_right _ (by simp)
      · exact List.mem_append_right _ (by simp)
    · simp only [Download.crawlGo, if_neg hmax] at hr ⊢
      by_cases hneg : pn + 1 < 0
      · rw [if_pos hneg] at hr ⊢
        exact ih (pn + 1) tr visited hr
      · rw [if_neg hneg] at hr ⊢
        by_cases hempty : (pw (pn + 1)).length = 0
        · rw [if_pos hempty] at hr
          simp at hr
        · rw [if_neg hempty] at hr ⊢
          cases hpc : Download.processCards dw (wc (pn + 1)) (pn + 1) (pw (pn + 1)) 0
            { tr with events := tr.events ++ [Download.Event.logPage (pn + 1)] } with
          | mk tr2 fatal =>
            cases fatal
            · simp only [hpc] at hr ⊢
              exact ih (pn + 1) tr2 (visited ++ [pn + 1]) hr
            · simp only [hpc] at hr
              simp at hr

theorem crawlGo_visited_chain (pw : Int → List Nature.Card)
    (dw : String → NatureArticle.ArticleSoup) (wc : Int → Nat → Option Nat) (mp : Int) :
    ∀ (fuel : Nat) (pn : Int) (tr : Download.Trace) (visited : List Int),
      List.Chain' (fun a b => b = a + 1) visited →
      (∀ l, visited.getLast? = some l → l = pn ∧ 0 ≤ pn) →
      List.Chain' (fun a b => b = a + 1)
        (Download.crawlGo pw dw wc mp fuel pn tr visited).visited := by
  intro fuel
  induction fuel with
  | zero =>
    intro pn tr visited hch hlast
    by_cases hmax : mp ≤ pn
    · simp only [Download.crawlGo, if_pos hmax]
      exact hch
    · simp only [Download.crawlGo, if_neg hmax]
      exact hch
  | succ n ih =>
    intro pn tr visited hch hlast
    have happ : List.Chain' (fun a b => b = a + 1) (visited ++ [pn + 1]) := by
      rw [List.chain'_append]
      refine ⟨hch, List.chain'_singleton _, ?_⟩
      intro x hx y hy
      have hx2 := hlast x hx
      have hy2 : pn + 1 = y := by simpa using hy
      omega
    by_cases hmax : mp ≤ pn
    · simp only [Download.crawlGo, if_pos hmax]
      exact hch
    · simp only [Download.crawlGo, if_neg hmax]
      by_cases hneg : pn + 1 < 0
      · rw [if_pos hneg]
        refine ih (pn + 1) tr visited hch ?_
        intro l hl
        have := hlast l hl
        omega
      · rw [if_neg hneg]
        by_cases hempty : (pw (pn + 1)).length = 0
        · rw [if_pos hempty]
          exact happ
        · rw [if_neg hempty]
          cases hpc : Download.processCards dw (wc (pn + 1)) (pn + 1) (pw (pn + 1)) 0
            { tr with events := tr.events ++ [Download.Event.logPage (pn + 1)] } with
          | mk tr2 fatal =>
            cases fatal
            · simp only [hpc]
              refine ih (pn + 1) tr2 (visited ++ [pn + 1]) happ ?_
              intro l hl
              rw [List.getLast?_concat] at hl
              have : pn + 1 = l := by simpa using hl
              omega
            · simp only [hpc]
              exact happ

/-- C7 (amended): the crawl always terminates, and it stops for exactly one of
three reasons — the page counter reached the maximum (logged distinctly with
the banner and the exceeded message), a fetched page had no article sections,
or an insertion-stage exception ended the crawl; the fetched page numbers form
a strictly increasing run of consecutive integers. -/
theorem C7_crawl_termination (pw : Int → List Nature.Card)
    (dw : String → NatureArticle.ArticleSoup) (wc : Int → Nat → Option Nat)
    (sp mp : Int) (db0 : Download.DB) (words0 : List (String × Nat)) :
    ((Download.crawl pw dw wc sp mp db0 words0).reason = Download.StopReason.maxReached ∨
     (Download.crawl pw dw wc sp mp db0 words0).reason = Download.StopReason.emptyPage ∨
     (Download.crawl pw dw wc sp mp db0 words0).reason = Download.StopReason.dbFatal) ∧
    List.Chain' (fun a b => b = a + 1) (Download.crawl pw dw wc sp mp db0 words0).visited ∧
    ((Download.crawl pw dw wc sp mp db0 words0).reason = Download.StopReason.maxReached →
      Download.Event.logHashLines ∈ (Download.crawl pw dw wc sp mp db0 words0).trace.events ∧
      Download.Event.logExceededMax (Download.crawl pw dw wc sp mp db0 words0).stop_page ∈
        (Download.crawl pw dw wc sp mp db0 words0).trace.events) := by
  refine ⟨?_, ?_, ?_⟩
  · have hnf := crawlGo_not_fuelOut pw dw wc mp (Download.crawlFuel mp sp) (sp - 1)
      { db := db0, words := words0, events := [] } [] le_rfl
    cases h : (Download.crawl pw dw wc sp mp db0 words0).reason with
    | maxReached => exact Or.inl rfl
    | emptyPage => exact Or.inr (Or.inl rfl)
    | dbFatal => exact Or.inr (Or.inr rfl)
    | fuelOut => exact absurd h hnf
  · exact crawlGo_visited_chain pw dw wc mp (Download.crawlFuel mp sp) (sp - 1)
      { db := db0, words := words0, events := [] } [] List.chain'_nil
      (fun l hl => by simp at hl)
  · exact crawlGo_maxReached_log pw dw wc mp (Download.crawlFuel mp sp) (sp - 1)
      { db := db0, words := words0, events := [] } []

/-- C7 witness: a run that hits the configured maximum immediately carries the
distinct banner logs, and its visited pages are consecutive. -/
theorem C7_crawl_termination_witness :
    ((Download.crawl Fix.pwA Fix.dwAB Fix.wcNone 1 0 Fix.db0 []).reason =
        Download.StopReason.maxReached ∨
     (Download.crawl Fix.pwA Fix.dwAB Fix.wcNone 1 0 Fix.db0 []).reason =
        Download.StopReason.emptyPage ∨
     (Download.crawl Fix.pwA Fix.dwAB Fix.wcNone 1 0 Fix.db0 []).reason =
        Download.StopReason.dbFatal) ∧
    List.Chain' (fun a b => b = a + 1)
      (Download.crawl Fix.pwA Fix.dwAB Fix.wcNone 1 0 Fix.db0 []).visited ∧
    (Download.Event.logHashLines ∈
      (Download.crawl Fix.pwA Fix.dwAB Fix.wcNone 1 0 Fix.db0 []).trace.events ∧
     Download.Event.logExceededMax
        (Download.crawl Fix.pwA Fix.dwAB Fix.wcNone 1 0 Fix.db0 []).stop_page ∈
      (Download.crawl Fix.pwA Fix.dwAB Fix.wcNone 1 0 Fix.db0 []).trace.events) := by
  have h := C7_crawl_termination Fix.pwA Fix.dwAB Fix.wcNone 1 0 Fix.db0 []
  exact ⟨h.1, h.2.1, h.2.2 (by decide)⟩

theorem authLoop_new_links (orcids : List (Option String)) (aid : Nat) :
    ∀ (auths : List String) (i : Nat) (db : Download.DB) (seen : List Nat)
      (evs evs2 : List Download.Event) (db2 : Download.DB),
      Download.authLoop orcids aid auths i db seen evs = (evs2, Except.ok db2) →
      ∃ new, db2.ARTICLES_AUTHORS.rows = db.ARTICLES_AUTHORS.rows ++ new ∧
        (new.map (fun r => rowGet r.2 "AUTHOR_ID")).Nodup ∧
        (∀ v ∈ new.map (fun r => rowGet r.2 "AUTHOR_ID"), ∀ s ∈ seen, v ≠ Value.vInt s) ∧
        (∀ r ∈ new, rowGet r.2 "ARTICLE_ID" = Value.vInt aid) := by
  intro auths
  induction auths with
  | nil =>
    intro i db seen evs evs2 db2 h
    simp only [Download.authLoop] at h
    have h2 : Except.ok db = Except.ok db2 := congrArg Prod.snd h
    have h3 : db = db2 := by injection h2
    subst h3
    exact ⟨[], (List.append_nil _).symm, List.nodup_nil, by simp, by simp⟩
  | cons auth rest ih =>
    intro i db seen evs evs2 db2 h
    simp only [Download.authLoop] at h
    by_cases hfn :
        (rowGet (Util.getSingleAuthorDict auth) "FIRSTNAME" == Value.vStr "") = true
    · rw [if_pos hfn] at h
      exact ih (i + 1) db seen evs evs2 db2 h
    · rw [if_neg hfn] at h
      cases horc : pyGet orcids i with
      | error e =>
        simp only [horc] at h
        have h2 : Except.error e = Except.ok db2 := congrArg Prod.snd h
        exact absurd h2 (by simp)
      | ok orc =>
        simp only [horc] at h
        by_cases hmem : (Download.authStep
            (dictSet (Util.getSingleAuthorDict auth) "ORCID"
              (Option.elim orc Value.vNone Value.vStr)) orc db.AUTHORS).2.1 ∈ seen
        · rw [if_pos hmem] at h
          obtain ⟨new, h1, h2, h3, h4⟩ := ih (i + 1) _ seen _ evs2 db2 h
          exact ⟨new, h1, h2, h3, h4⟩
        · rw [if_neg hmem] at h
          obtain ⟨new2, h1, h2, h3, h4⟩ := ih (i + 1) _ _ _ evs2 db2 h
          refine ⟨(db.ARTICLES_AUTHORS.nextId,
            [("ARTICLE_ID", Value.vInt (aid : Int)),
             ("AUTHOR_ID", Value.vInt ((Download.authStep
               (dictSet (Util.getSingleAuthorDict auth) "ORCID"
                 (Option.elim orc Value.vNone Value.vStr)) orc db.AUTHORS).2.1 : Int))]) ::
            new2, ?_, ?_, ?_, ?_⟩
          · rw [h1]
            simp [Util.myInsert, List.append_assoc]
          · rw [List.map_cons, List.nodup_cons]
            refine ⟨?_, h2⟩
            intro hvm
            have := h3 _ hvm ((Download.authStep
              (dictSet (Util.getSingleAuthorDict auth) "ORCID"
                (Option.elim orc Value.vNone Value.vStr)) orc db.AUTHORS).2.1)
              (List.mem_cons_self _ _)
            exact this rfl
          · intro v hv s hs
            rcases List.mem_cons.mp hv with hv1 | hv2
            · rw [hv1]
              intro he
              have : (Download.authStep
                (dictSet (Util.getSingleAuthorDict auth) "ORCID"
                  (Option.elim orc Value.vNone Value.vStr)) orc db.AUTHORS).2.1 = s := by
                have := Value.vInt.inj he
                omega
              exact hmem (this ▸ hs)
            · exact h3 v hv2 s (List.mem_cons_of_mem _ hs)
          · intro r hr
            rcases List.mem_cons.mp hr with hr1 | hr2
            · rw [hr1]
              rfl
            · exact h4 r hr2

/-- C4 (confirmed): over one article's author loop started with an empty
seen-set, the ARTICLES_AUTHORS rows added are exactly a block of new rows all
carrying this article's id, with pairwise-distinct author ids — at most one
link row per distinct (article id, author id) pair. -/
theorem C4_links_unique (orcids : List (Option String)) (aid : Nat)
    (auths : List String) (i : Nat) (db : Download.DB)
    (evs evs2 : List Download.Event) (db2 : Download.DB)
    (h : Download.authLoop orcids aid auths i db [] evs = (evs2, Except.ok db2)) :
    ∃ new, db2.ARTICLES_AUTHORS.rows = db.ARTICLES_AUTHORS.rows ++ new ∧
      (new.map (fun r => rowGet r.2 "AUTHOR_ID")).Nodup ∧
      (∀ r ∈ new, rowGet r.2 "ARTICLE_ID" = Value.vInt aid) := by
  obtain ⟨new, h1, h2, h3, h4⟩ := authLoop_new_links orcids aid auths i db [] evs evs2 db2 h
  exact ⟨new, h1, h2, h4⟩

/-- C4 witness: the same ORCID listed twice (a repeated author) yields exactly
one link row for the article. -/
theorem C4_links_unique_witness :
    ∃ new, Fix.dbC4.ARTICLES_AUTHORS.rows = Fix.db0.ARTICLES_AUTHORS.rows ++ new ∧
      (new.map (fun r => rowGet r.2 "AUTHOR_ID")).Nodup ∧
      (∀ r ∈ new, rowGet r.2 "ARTICLE_ID" = Value.vInt 5) :=
  C4_links_unique [some "o1", some "o1"] 5 ["Alice Smith", "Alice B Smith"] 0 Fix.db0
    [] [Download.Event.selectAuthorByOrcid "o1",
      Download.Event.insertAuthor [("FIRSTNAME", Value.vStr "Alice"),
        ("LASTNAME", Value.vStr "Smith"), ("ORCID", Value.vStr "o1")],
      Download.Event.insertLink 5 1,
      Download.Event.selectAuthorByOrcid "o1"] _ (by decide)

/-- C5 witness: with an AUTHORS table already holding ORCID o1 under id 7,
resolution by that ORCID returns 7 and does not change the table; on an empty
table, resolution inserts and returns the auto-generated id 1. -/
theorem C5_author_resolution_witness :
    Download.authStep [("FIRSTNAME", Value.vStr "Alice")] (some "o1")
      { cols := [⟨"ID", none⟩, ⟨"ORCID", some 255⟩],
        rows := [(7, [("ORCID", Value.vStr "o1")])], nextId := 8 } =
      ([Download.Event.selectAuthorByOrcid "o1"], 7,
        { cols := [⟨"ID", none⟩, ⟨"ORCID", some 255⟩],
          rows := [(7, [("ORCID", Value.vStr "o1")])], nextId := 8 }) ∧
    Download.authStep [("FIRSTNAME", Value.vStr "Alice")] (some "o2")
      { cols := ([] : List Column), rows := [], nextId := 1 } =
      ([Download.Event.selectAuthorByOrcid "o2",
        Download.Event.insertAuthor [("FIRSTNAME", Value.vStr "Alice")]], 1,
        { cols := [], rows := [(1, [])], nextId := 2 }) := by
  constructor
  · exact (C5_author_resolution [("FIRSTNAME", Value.vStr "Alice")] _).1 "o1" 7
      [("ORCID", Value.vStr "o1")] (by decide)
  · have h := (C5_author_resolution [("FIRSTNAME", Value.vStr "Alice")]
      { cols := ([] : List Column), rows := [], nextId := 1 }).2.1 "o2" (by decide)
    exact h.trans (by decide)

end SJ
